import Mathlib

/-!
Verification of the mt5-trading-bot repository against its specification.

Part 1 embeds the executable code of the notebook
`High-Risk_Leveraged_MT5_Trading_Bot.ipynb`: the pandas rolling-mean SMA
columns, the signal / `diff()` position column (with Python float-NaN
comparison semantics), and the order request built by `execute_trade`.

Part 2 models the Backtest Simulator, metrics calculator and RSI indicator.
The repository contains no implementation of these (the `mt5trade`
sub-project's own status notes list the backtesting engine as unbuilt), so
they are modelled from the specification's §3, §4 and §7, with rational
numbers in place of floats.
-/

/-- A pandas cell value as seen by the notebook's trade loop: either a float
NaN (produced by `diff()` at the first row) or a numeric value.  Mirrors
Python float comparison semantics: any comparison with NaN is false. -/
inductive PdVal where
  | nan : PdVal
  | val : ℚ → PdVal
deriving DecidableEq

/-- Python `x == q` on a possibly-NaN cell: false for NaN. -/
def pdEq (x : PdVal) (q : ℚ) : Bool :=
  match x with
  | PdVal.nan => false
  | PdVal.val v => decide (v = q)

/-- Python `x != q` on a possibly-NaN cell: true for NaN (`NaN != 0` is true,
so the NaN row passes the notebook's `df[df['positions'] != 0]` filter). -/
def pdNe (x : PdVal) (q : ℚ) : Bool :=
  match x with
  | PdVal.nan => true
  | PdVal.val v => decide (v ≠ q)

/-- One row's `signal` value from the notebook: `0` by default, `1` where
`sma_fast > sma_slow`, `-1` where `sma_fast < sma_slow`.  A comparison
involving an undefined (NaN) rolling mean is false, so such rows keep `0`. -/
def signalVal (fast slow : Option ℚ) : ℚ :=
  match fast, slow with
  | some f, some s => if f > s then 1 else if f < s then -1 else 0
  | _, _ => 0

/-- The notebook's `df['signal']` column from the two SMA columns. -/
def signalCol (fast slow : List (Option ℚ)) : List ℚ :=
  (fast.zip slow).map fun fs => signalVal fs.1 fs.2

/-- Pandas `Series.diff()`: NaN at the first row, `x[i] - x[i-1]` after,
as used for the notebook's `df['positions']` column. -/
def diffCol (xs : List ℚ) : List PdVal :=
  match xs with
  | [] => []
  | _ :: _ => PdVal.nan :: ((xs.zip xs.tail).map fun ab => PdVal.val (ab.2 - ab.1))

/-- Pandas `Series.rolling(n).mean()` over the close column, as used for the
notebook's `df['sma_fast']` and `df['sma_slow']`: the value at index `i` is
the mean of the last `n` entries when `i + 1 ≥ n`, and NaN (here `none`)
before the window is full.  The output is aligned with the input. -/
def rollingMean (n : ℕ) (xs : List ℚ) : List (Option ℚ) :=
  (List.range xs.length).map fun i =>
    if n ≤ i + 1 then some ((((xs.take (i + 1)).drop (i + 1 - n)).sum) / n) else none

/-- An MT5 price tick (`mt5.symbol_info_tick`): ask and bid quotes. -/
structure Tick where
  ask : ℚ
  bid : ℚ
deriving DecidableEq

/-- The slice of `mt5.symbol_info` the notebook reads: the point value. -/
structure SymbolInfo where
  point : ℚ
deriving DecidableEq

/-- MT5 order type constant chosen by `execute_trade`. -/
inductive OrderType where
  | buy : OrderType
  | sell : OrderType
deriving DecidableEq

/-- The numeric fields of the order request dict built by `execute_trade`
(the constant string fields `action`, `symbol`, `comment`, `type_time`,
`type_filling` are opaque broker constants and carry no numeric content). -/
structure OrderRequest where
  volume : ℚ
  otype : OrderType
  price : ℚ
  sl : ℚ
  tp : ℚ
  deviation : ℕ
  magic : ℕ
deriving DecidableEq

/-- The request dict built by the notebook's `execute_trade(position, volume)`:
buy at ask if `position == 1`, else sell at bid; `'sl': 10 * point` and
`'tp': 20 * point`; `'deviation': 2`; `'magic': 123456`. -/
def buildRequest (position : PdVal) (volume : ℚ) (tick : Tick) (info : SymbolInfo) : OrderRequest :=
  { volume := volume
    otype := if pdEq position 1 then OrderType.buy else OrderType.sell
    price := if pdEq position 1 then tick.ask else tick.bid
    sl := 10 * info.point
    tp := 20 * info.point
    deviation := 2
    magic := 123456 }

/-- Modelled from the spec: trade direction of a Position (§3). -/
inductive Direction where
  | long : Direction
  | short : Direction
deriving DecidableEq

/-- Modelled from the spec: the Signal variant attached to a bar index (§3). -/
inductive Signal where
  | none : Signal
  | enterLong : Signal
  | exitLong : Signal
  | enterShort : Signal
  | exitShort : Signal
deriving DecidableEq

/-- Modelled from the spec: exit reason recorded on a ClosedTrade (§3). -/
inductive ExitReason where
  | signalExit : ExitReason
  | stopLoss : ExitReason
  | takeProfit : ExitReason
  | endOfData : ExitReason
deriving DecidableEq

/-- Modelled from the spec: one PriceBar of the input series (§3), with
rationals for the price fields. -/
structure PriceBar where
  time : ℕ
  openPrice : ℚ
  high : ℚ
  low : ℚ
  close : ℚ
  volume : ℚ
deriving DecidableEq

/-- Modelled from the spec: an open Position (§3). -/
structure Position where
  dir : Direction
  entryPrice : ℚ
  entryTime : ℕ
  volume : ℚ
  stopLoss : ℚ
  takeProfit : ℚ
  leverage : ℚ
deriving DecidableEq

/-- Modelled from the spec: a ClosedTrade appended to the ledger (§3). -/
structure ClosedTrade where
  dir : Direction
  entryPrice : ℚ
  exitPrice : ℚ
  exitTime : ℕ
  reason : ExitReason
  pnl : ℚ
deriving DecidableEq

/-- Modelled from the spec: the Ledger/Account running state (§3): balance,
ordered closed trades, open positions, high-water mark. -/
structure Ledger where
  balance : ℚ
  trades : List ClosedTrade
  openPositions : List Position
  highWater : ℚ
deriving DecidableEq

/-- Modelled from the spec: the risk configuration (§6). -/
structure RiskConfig where
  initialBalance : ℚ
  leverage : ℚ
  riskPerTrade : ℚ
  stopLossDistance : ℚ
  takeProfitDistance : ℚ
  maxOpenPositions : ℕ
deriving DecidableEq

/-- Modelled from the spec: the error taxonomy of §7 (the simulator itself
only raises ConfigurationError; DataError covers malformed bars). -/
inductive BacktestError where
  | configurationError : BacktestError
  | dataError : ℕ → BacktestError
deriving DecidableEq

/-- Modelled from the spec: validity of the risk configuration per §6/§7 —
positive initial balance, leverage ≥ 1, risk fraction in (0,1], positive
stop-loss and take-profit distances, at least one allowed position. -/
def validConfig (cfg : RiskConfig) : Bool :=
  decide (0 < cfg.initialBalance) && decide (1 ≤ cfg.leverage) &&
  decide (0 < cfg.riskPerTrade) && decide (cfg.riskPerTrade ≤ 1) &&
  decide (0 < cfg.stopLossDistance) && decide (0 < cfg.takeProfitDistance) &&
  decide (1 ≤ cfg.maxOpenPositions)

/-- Modelled from the spec: the ledger at the start of a run (§3). -/
def initLedger (cfg : RiskConfig) : Ledger :=
  { balance := cfg.initialBalance
    trades := []
    openPositions := []
    highWater := cfg.initialBalance }

/-- Modelled from the spec (§4.2 step 3, §9): open a position at the bar's
close price, sized so a stop-loss hit loses exactly `riskPerTrade` of the
balance at entry; leverage is carried on the position but does not enter the
sizing (the spec fixes the leverage-independent risk-fraction policy). -/
def openPosition (cfg : RiskConfig) (dir : Direction) (bar : PriceBar) (balance : ℚ) : Position :=
  { dir := dir
    entryPrice := bar.close
    entryTime := bar.time
    volume := cfg.riskPerTrade * balance / cfg.stopLossDistance
    stopLoss :=
      match dir with
      | Direction.long => bar.close - cfg.stopLossDistance
      | Direction.short => bar.close + cfg.stopLossDistance
    takeProfit :=
      match dir with
      | Direction.long => bar.close + cfg.takeProfitDistance
      | Direction.short => bar.close - cfg.takeProfitDistance
    leverage := cfg.leverage }

/-- Modelled from the spec: realized P&L of a position at an exit price (§3). -/
def positionPnl (p : Position) (exitPrice : ℚ) : ℚ :=
  match p.dir with
  | Direction.long => p.volume * (exitPrice - p.entryPrice)
  | Direction.short => p.volume * (p.entryPrice - exitPrice)

/-- Modelled from the spec: the ClosedTrade produced by closing a position
(§3): exit price, exit time, exit reason and realized P&L. -/
def closePosition (p : Position) (exitPrice : ℚ) (t : ℕ) (r : ExitReason) : ClosedTrade :=
  { dir := p.dir
    entryPrice := p.entryPrice
    exitPrice := exitPrice
    exitTime := t
    reason := r
    pnl := positionPnl p exitPrice }

/-- Modelled from the spec (§4.2 step 1): whether the bar's low/high range
reaches the position's stop-loss price. -/
def slHit (p : Position) (bar : PriceBar) : Bool :=
  match p.dir with
  | Direction.long => decide (bar.low ≤ p.stopLoss)
  | Direction.short => decide (p.stopLoss ≤ bar.high)

/-- Modelled from the spec (§4.2 step 1): whether the bar's low/high range
reaches the position's take-profit price. -/
def tpHit (p : Position) (bar : PriceBar) : Bool :=
  match p.dir with
  | Direction.long => decide (p.takeProfit ≤ bar.high)
  | Direction.short => decide (bar.low ≤ p.takeProfit)

/-- Modelled from the spec (§4.2 step 1): the trigger fired by a bar for an
open position, if any, with the triggered price as exit price; when both
stop-loss and take-profit would fire within the same bar, stop-loss takes
priority. -/
def triggeredExit (p : Position) (bar : PriceBar) : Option (ℚ × ExitReason) :=
  if slHit p bar then some (p.stopLoss, ExitReason.stopLoss)
  else if tpHit p bar then some (p.takeProfit, ExitReason.takeProfit)
  else none

/-- Modelled from the spec (§4.2 steps 1/4/5/6): one step of a sweep over the
open positions: a position the rule `er` selects is closed at the price and
reason `er` returns (balance and high-water mark updated, trade appended);
an unselected position stays open. -/
def sweepStep (er : Position → Option (ℚ × ExitReason)) (t : ℕ) (acc : Ledger) (p : Position) : Ledger :=
  match er p with
  | some (px, r) =>
      let ct := closePosition p px t r
      { balance := acc.balance + ct.pnl
        trades := acc.trades ++ [ct]
        openPositions := acc.openPositions
        highWater := max acc.highWater (acc.balance + ct.pnl) }
  | none => { acc with openPositions := acc.openPositions ++ [p] }

/-- Modelled from the spec (§4.2 steps 1/4/5/6): sweep the ledger's open
positions with a close rule, accumulating closes into the ledger. -/
def sweep (er : Position → Option (ℚ × ExitReason)) (t : ℕ) (led : Ledger) : Ledger :=
  led.openPositions.foldl (sweepStep er t) { led with openPositions := [] }

/-- Modelled from the spec (§4.2 steps 1-4): process one bar: first evaluate
stop-loss/take-profit triggers against the bar's range (closing at the
triggered price), then act on the signal at this index: an Enter opens at the
bar's close (same-bar-close policy) when the position-count bound allows, an
Exit closes the matching-direction positions at the bar's close with reason
SignalExit. -/
def stepBar (cfg : RiskConfig) (rule : ℕ → Signal) (i : ℕ) (bar : PriceBar) (led : Ledger) : Ledger :=
  let led1 := sweep (fun p => triggeredExit p bar) bar.time led
  match rule i with
  | Signal.none => led1
  | Signal.enterLong =>
      if led1.openPositions.length < cfg.maxOpenPositions then
        { led1 with openPositions :=
            led1.openPositions ++ [openPosition cfg Direction.long bar led1.balance] }
      else led1
  | Signal.enterShort =>
      if led1.openPositions.length < cfg.maxOpenPositions then
        { led1 with openPositions :=
            led1.openPositions ++ [openPosition cfg Direction.short bar led1.balance] }
      else led1
  | Signal.exitLong =>
      sweep (fun p =>
        if p.dir = Direction.long then some (bar.close, ExitReason.signalExit) else none)
        bar.time led1
  | Signal.exitShort =>
      sweep (fun p =>
        if p.dir = Direction.short then some (bar.close, ExitReason.signalExit) else none)
        bar.time led1

/-- Modelled from the spec (§4.2): the ledger after the bar-by-bar pass,
before the end-of-data force close. -/
def afterAllBars (cfg : RiskConfig) (rule : ℕ → Signal) (bars : List PriceBar) : Ledger :=
  bars.enum.foldl (fun led ib => stepBar cfg rule ib.1 ib.2 led) (initLedger cfg)

/-- Modelled from the spec (§4.2, §7): run the Backtest Simulator: reject an
invalid risk configuration with ConfigurationError before any bar is
processed; otherwise replay the bars and finally force-close every remaining
open position at the final bar's close price with reason EndOfData. -/
def runBacktest (cfg : RiskConfig) (rule : ℕ → Signal) (bars : List PriceBar) :
    Except BacktestError Ledger :=
  if validConfig cfg then
    match bars.getLast? with
    | Option.none => Except.ok (afterAllBars cfg rule bars)
    | Option.some lastBar =>
        Except.ok (sweep (fun _ => some (lastBar.close, ExitReason.endOfData))
          lastBar.time (afterAllBars cfg rule bars))
  else Except.error BacktestError.configurationError

/-- Modelled from the spec: sum of realized P&L over a trade list (§8). -/
def pnlSum (ts : List ClosedTrade) : ℚ :=
  (ts.map fun t => t.pnl).sum

/-- Modelled from the spec: gross profit — sum of the positive P&L values (§4.2). -/
def grossProfit (ts : List ClosedTrade) : ℚ :=
  ((ts.filter fun t => decide (0 < t.pnl)).map fun t => t.pnl).sum

/-- Modelled from the spec: gross loss — absolute sum of the negative P&L
values (§4.2). -/
def grossLoss (ts : List ClosedTrade) : ℚ :=
  -((ts.filter fun t => decide (t.pnl < 0)).map fun t => t.pnl).sum

/-- Modelled from the spec: win rate — fraction of trades with positive P&L,
`0` (not a division error) on an empty ledger (§4.2, §8). -/
def winRate (ts : List ClosedTrade) : ℚ :=
  if ts.length = 0 then 0
  else ((ts.filter fun t => decide (0 < t.pnl)).length : ℚ) / (ts.length : ℚ)

/-- Modelled from the spec: profit factor — gross profit over gross loss,
reported as `none` (null/infinite, not a division error) when there are no
losing trades (§4.2, §8). -/
def profitFactor (ts : List ClosedTrade) : Option ℚ :=
  if grossLoss ts = 0 then none else some (grossProfit ts / grossLoss ts)

/-- Modelled from the spec (§8): the number of positions still open entering
the last bar — the state after processing every bar but the last. -/
def openEnteringLast (cfg : RiskConfig) (rule : ℕ → Signal) (bars : List PriceBar) : ℕ :=
  ((bars.enum.dropLast).foldl (fun led ib => stepBar cfg rule ib.1 ib.2 led)
    (initLedger cfg)).openPositions.length

/-- Modelled from the spec (§8): the number of EndOfData trades in a ledger. -/
def endOfDataCount (led : Ledger) : ℕ :=
  (led.trades.filter fun t => decide (t.reason = ExitReason.endOfData)).length

/-- Modelled from the spec (§4.1): the price move at bar `j`, the difference
of consecutive closes (0 at `j = 0` where there is no previous bar). -/
def priceMove (closes : List ℚ) (j : ℕ) : ℚ :=
  closes.getD j 0 - closes.getD (j - 1) 0

/-- Modelled from the spec (§4.1): the up-move at bar `j`. -/
def upMove (closes : List ℚ) (j : ℕ) : ℚ :=
  max (priceMove closes j) 0

/-- Modelled from the spec (§4.1): the down-move at bar `j`. -/
def downMove (closes : List ℚ) (j : ℕ) : ℚ :=
  max (-(priceMove closes j)) 0

/-- Modelled from the spec (§4.1): average up-move over the rolling window of
`n` bars ending at bar `i`. -/
def avgUp (n : ℕ) (closes : List ℚ) (i : ℕ) : ℚ :=
  (((List.range n).map fun k => upMove closes (i - k)).sum) / n

/-- Modelled from the spec (§4.1): average down-move over the rolling window
of `n` bars ending at bar `i`. -/
def avgDown (n : ℕ) (closes : List ℚ) (i : ℕ) : ℚ :=
  (((List.range n).map fun k => downMove closes (i - k)).sum) / n

/-- Modelled from the spec (§4.1): the RSI value from the two rolling
averages: 100 when the average down-move is zero and the average up-move is
not, 50 by convention when both are zero, and the standard
`100 - 100 / (1 + RS)` otherwise. -/
def rsiValue (up down : ℚ) : ℚ :=
  if down = 0 then (if up = 0 then 50 else 100)
  else 100 - 100 / (1 + up / down)

/-- Modelled from the spec (§4.1): RSI(n) at index `i` of the close series:
undefined (`none`) until the rolling window of `n` moves ending at bar `i`
is available, the `rsiValue` of the two rolling averages afterwards. -/
def rsi (n : ℕ) (closes : List ℚ) (i : ℕ) : Option ℚ :=
  if n ≤ i ∧ i < closes.length then
    some (rsiValue (avgUp n closes i) (avgDown n closes i))
  else none

/-- A valid demo risk configuration with integer-valued fields. -/
def demoCfg : RiskConfig :=
  { initialBalance := 1000
    leverage := 5
    riskPerTrade := 1
    stopLossDistance := 1
    takeProfitDistance := 2
    maxOpenPositions := 1 }

/-- A demo rule that never signals. -/
def demoRule : ℕ → Signal := fun _ => Signal.none

/-- A demo bar with a flat price range. -/
def demoBar : PriceBar :=
  { time := 0, openPrice := 100, high := 100, low := 100, close := 100, volume := 0 }

/-- A demo rule that enters long at bar 0 and is silent afterwards. -/
def ruleEnter0 : ℕ → Signal := fun i => if i = 0 then Signal.enterLong else Signal.none

/-- A bar whose low reaches the stop-loss of a long position opened at 100
with stop distance 1 (used to stop that position out on the final bar). -/
def cexBar1 : PriceBar :=
  { time := 1, openPrice := 100, high := 100, low := 98, close := 98, volume := 0 }

/-- A demo closed trade with positive P&L. -/
def demoTrade : ClosedTrade :=
  { dir := Direction.long, entryPrice := 100, exitPrice := 101, exitTime := 1,
    reason := ExitReason.signalExit, pnl := 1 }

/-- A demo open long position. -/
def demoPos : Position :=
  { dir := Direction.long, entryPrice := 10, entryTime := 0, volume := 1,
    stopLoss := 9, takeProfit := 12, leverage := 1 }

/-- A demo bar whose range reaches both the stop-loss and the take-profit of
`demoPos`. -/
def demoTieBar : PriceBar :=
  { time := 1, openPrice := 10, high := 13, low := 8, close := 11, volume := 0 }

/-- A demo ledger with no trades and no open positions. -/
def demoLed : Ledger :=
  { balance := 0, trades := [], openPositions := [], highWater := 0 }

/-- An invalid demo configuration: zero stop-loss distance. -/
def badCfg : RiskConfig :=
  { demoCfg with stopLossDistance := 0 }

lemma getD_map_range (f : ℕ → Option ℚ) (m i : ℕ) :
    ((List.range m).map f).getD i none = if i < m then f i else none := by
  by_cases h : i < m
  · simp [List.getD_eq_getElem?_getD, List.getElem?_map, List.getElem?_range h, h]
  · have : (List.range m)[i]? = none := by
      simp [List.getElem?_range]
      omega
    simp [List.getD_eq_getElem?_getD, List.getElem?_map, this, h]

/-- Claim C8: for every input series and SMA window `n`, the rolling-mean
series has exactly the input's length, its value at index `i` is defined iff
`n - 1 ≤ i` (and `i` is in range), and an input shorter than `n` yields an
entirely undefined series rather than an error. -/
theorem sma_alignment (n : ℕ) (xs : List ℚ) :
    (rollingMean n xs).length = xs.length ∧
    (∀ i, ((rollingMean n xs).getD i none).isSome = true ↔ (n - 1 ≤ i ∧ i < xs.length)) ∧
    (xs.length < n → ∀ v ∈ rollingMean n xs, v = none) := by
  refine ⟨by simp [rollingMean], fun i => ?_, fun hshort v hv => ?_⟩
  · rw [rollingMean, getD_map_range]
    by_cases h : i < xs.length
    · simp only [h, if_true]
      by_cases h2 : n ≤ i + 1
      · simp [h2, h]
      · simp [h2]
    · simp [h]
  · rw [rollingMean] at hv
    simp only [List.mem_map, List.mem_range] at hv
    obtain ⟨i, hi, rfl⟩ := hv
    have : ¬ (n ≤ i + 1) := by omega
    simp [this]

/-- Witness for C8: at window 2 over a 3-bar series, the output has length 3
and index 1 is defined; over a 1-bar series the output is entirely undefined. -/
theorem sma_alignment_witness :
    (rollingMean 2 [(1:ℚ), 2, 3]).length = 3 ∧
    ((rollingMean 2 [(1:ℚ), 2, 3]).getD 1 none).isSome = true ∧
    (rollingMean 2 [(5:ℚ)]).getD 0 none = none :=
  ⟨(sma_alignment 2 [(1:ℚ), 2, 3]).1,
   ((sma_alignment 2 [(1:ℚ), 2, 3]).2.1 1).mpr (by decide),
   (sma_alignment 2 [(5:ℚ)]).2.2 (by decide) ((rollingMean 2 [(5:ℚ)]).getD 0 none) (by decide)⟩

/-- Claim C9: every order request built by `execute_trade` carries
`sl = 10 × point` and `tp = 20 × point` — fixed values independent of the
quoted entry price, the direction, and the market price. -/
theorem fixed_sl_tp (position : PdVal) (volume : ℚ) (tick : Tick) (info : SymbolInfo) :
    (buildRequest position volume tick info).sl = 10 * info.point ∧
    (buildRequest position volume tick info).tp = 20 * info.point := ⟨rfl, rfl⟩

/-- Claim C10: `execute_trade` submits a buy order at the ask price iff its
position argument equals 1; every other value — including the NaN that
`diff()` puts at the first row, which passes the `!= 0` filter — yields a
sell order at the bid price. -/
theorem order_direction (p : PdVal) (v : ℚ) (t : Tick) (s : SymbolInfo) :
    ((buildRequest p v t s).otype = OrderType.buy ↔ p = PdVal.val 1) ∧
    ((buildRequest p v t s).otype = OrderType.buy →
      (buildRequest p v t s).price = t.ask) ∧
    (p ≠ PdVal.val 1 →
      (buildRequest p v t s).otype = OrderType.sell ∧ (buildRequest p v t s).price = t.bid) ∧
    (∀ x xs, (diffCol (x :: xs)).head? = some PdVal.nan) ∧
    pdNe PdVal.nan 0 = true := by
  refine ⟨?_, ?_, ?_, fun x xs => rfl, rfl⟩
  · constructor
    · intro h
      cases p with
      | nan => simp [buildRequest, pdEq] at h
      | val q =>
        by_cases hq : q = 1
        · rw [hq]
        · simp [buildRequest, pdEq, hq] at h
    · intro h
      subst h
      simp [buildRequest, pdEq]
  · intro h
    cases p with
    | nan => simp [buildRequest, pdEq] at h ⊢
    | val q =>
      by_cases hq : q = 1
      · simp [buildRequest, pdEq, hq]
      · simp [buildRequest, pdEq, hq] at h
  · intro h
    cases p with
    | nan => simp [buildRequest, pdEq]
    | val q =>
      have hq : ¬ q = 1 := fun hc => h (by rw [hc])
      simp [buildRequest, pdEq, hq]

/-- Witness for C10: with position 1 the order is a buy, with the NaN cell it
is a sell. -/
theorem order_direction_witness :
    (buildRequest (PdVal.val 1) 1 ⟨2, 1⟩ ⟨1⟩).otype = OrderType.buy ∧
    (buildRequest PdVal.nan 1 ⟨2, 1⟩ ⟨1⟩).otype = OrderType.sell := by
  constructor
  · exact (order_direction (PdVal.val 1) 1 ⟨2, 1⟩ ⟨1⟩).1.mpr rfl
  · exact ((order_direction PdVal.nan 1 ⟨2, 1⟩ ⟨1⟩).2.2.1 (by simp)).1

/-- Claim C4: RSI at a defined index is 100 when the rolling average
down-move is zero and the average up-move is not, and 50 when both are zero;
hence every defined RSI value on a constant series is 50, and on a strictly
rising series every defined value is (already) 100. -/
theorem rsi_edge_conventions (n : ℕ) (closes : List ℚ) (hn : 0 < n) :
    (∀ i, n ≤ i → i < closes.length →
       (avgDown n closes i = 0 → avgUp n closes i ≠ 0 → rsi n closes i = some 100) ∧
       (avgDown n closes i = 0 → avgUp n closes i = 0 → rsi n closes i = some 50)) ∧
    ((∀ j, j < closes.length → closes.getD j 0 = closes.getD 0 0) →
       ∀ i, n ≤ i → i < closes.length → rsi n closes i = some 50) ∧
    ((∀ j, j + 1 < closes.length → closes.getD j 0 < closes.getD (j + 1) 0) →
       ∀ i, n ≤ i → i < closes.length → rsi n closes i = some 100) := by
  have base : ∀ i, n ≤ i → i < closes.length →
      (avgDown n closes i = 0 → avgUp n closes i ≠ 0 → rsi n closes i = some 100) ∧
      (avgDown n closes i = 0 → avgUp n closes i = 0 → rsi n closes i = some 50) := by
    intro i hni hil
    constructor
    · intro hd hu
      rw [rsi, if_pos ⟨hni, hil⟩, rsiValue, if_pos hd, if_neg hu]
    · intro hd hu
      rw [rsi, if_pos ⟨hni, hil⟩, rsiValue, if_pos hd, if_pos hu]
  refine ⟨base, ?_, ?_⟩
  · intro hflat i hni hil
    have hmove : ∀ k, k < n → priceMove closes (i - k) = 0 := by
      intro k hk
      have h1 : i - k < closes.length := by omega
      have h2 : i - k - 1 < closes.length := by omega
      rw [priceMove, hflat _ h1, hflat _ h2, sub_self]
    have hu : avgUp n closes i = 0 := by
      rw [avgUp]
      have : (((List.range n).map fun k => upMove closes (i - k))).sum = 0 := by
        apply List.sum_eq_zero
        intro x hx
        simp only [List.mem_map, List.mem_range] at hx
        obtain ⟨k, hk, rfl⟩ := hx
        rw [upMove, hmove k hk]
        simp
      rw [this, zero_div]
    have hd : avgDown n closes i = 0 := by
      rw [avgDown]
      have : (((List.range n).map fun k => downMove closes (i - k))).sum = 0 := by
        apply List.sum_eq_zero
        intro x hx
        simp only [List.mem_map, List.mem_range] at hx
        obtain ⟨k, hk, rfl⟩ := hx
        rw [downMove, hmove k hk]
        simp
      rw [this, zero_div]
    exact (base i hni hil).2 hd hu
  · intro hrise i hni hil
    have hmove : ∀ k, k < n → 0 < priceMove closes (i - k) := by
      intro k hk
      have h2 : (i - k - 1) + 1 = i - k := by omega
      have h3 : (i - k - 1) + 1 < closes.length := by omega
      have := hrise (i - k - 1) h3
      rw [h2] at this
      rw [priceMove]
      linarith
    have hd : avgDown n closes i = 0 := by
      rw [avgDown]
      have : (((List.range n).map fun k => downMove closes (i - k))).sum = 0 := by
        apply List.sum_eq_zero
        intro x hx
        simp only [List.mem_map, List.mem_range] at hx
        obtain ⟨k, hk, rfl⟩ := hx
        rw [downMove]
        have := hmove k hk
        simp only [max_eq_right_iff]
        linarith
      rw [this, zero_div]
    have hu : avgUp n closes i ≠ 0 := by
      rw [avgUp]
      have hpos : 0 < (((List.range n).map fun k => upMove closes (i - k))).sum := by
        apply List.sum_pos
        · intro x hx
          simp only [List.mem_map, List.mem_range] at hx
          obtain ⟨k, hk, rfl⟩ := hx
          rw [upMove]
          have := hmove k hk
          simp only [lt_max_iff]
          left
          exact this
        · simp
          omega
      have hn0 : (0:ℚ) < (n:ℚ) := by exact_mod_cast hn
      positivity
    exact (base i hni hil).1 hd hu

/-- Witness for C4: RSI(1) on the flat series [1,1] is 50 at index 1 and on
the rising series [1,2] is 100 at index 1. -/
theorem rsi_edge_witness :
    rsi 1 [(1:ℚ), 1] 1 = some 50 ∧ rsi 1 [(1:ℚ), 2] 1 = some 100 := by
  constructor
  · exact (rsi_edge_conventions 1 [(1:ℚ), 1] (by decide)).2.1 (by decide) 1 (by decide) (by decide)
  · refine (rsi_edge_conventions 1 [(1:ℚ), 2] (by decide)).2.2 ?_ 1 (by decide) (by decide)
    intro j hj
    have hj0 : j = 0 := by simp at hj; omega
    subst hj0
    decide

lemma pnlSum_append (ts : List ClosedTrade) (ct : ClosedTrade) :
    pnlSum (ts ++ [ct]) = pnlSum ts + ct.pnl := by
  simp [pnlSum]

lemma foldl_sweepStep_consistency (er : Position → Option (ℚ × ExitReason)) (t : ℕ)
    (ps : List Position) (acc : Ledger) :
    (ps.foldl (sweepStep er t) acc).balance - pnlSum (ps.foldl (sweepStep er t) acc).trades
      = acc.balance - pnlSum acc.trades := by
  induction ps generalizing acc with
  | nil => rfl
  | cons p ps ih =>
    rw [List.foldl_cons, ih]
    cases her : er p with
    | none => simp [sweepStep, her]
    | some pr =>
      simp only [sweepStep, her]
      rw [pnlSum_append]
      ring

lemma sweep_consistency (er : Position → Option (ℚ × ExitReason)) (t : ℕ) (led : Ledger) :
    (sweep er t led).balance - pnlSum (sweep er t led).trades
      = led.balance - pnlSum led.trades :=
  foldl_sweepStep_consistency er t led.openPositions { led with openPositions := [] }

lemma stepBar_consistency (cfg : RiskConfig) (rule : ℕ → Signal) (i : ℕ) (bar : PriceBar)
    (led : Ledger) :
    (stepBar cfg rule i bar led).balance - pnlSum (stepBar cfg rule i bar led).trades
      = led.balance - pnlSum led.trades := by
  rw [stepBar]
  cases rule i with
  | none => exact sweep_consistency _ _ _
  | enterLong =>
    simp only
    split
    · simpa using sweep_consistency (fun p => triggeredExit p bar) bar.time led
    · exact sweep_consistency _ _ _
  | enterShort =>
    simp only
    split
    · simpa using sweep_consistency (fun p => triggeredExit p bar) bar.time led
    · exact sweep_consistency _ _ _
  | exitLong =>
    simp only
    rw [sweep_consistency]
    exact sweep_consistency _ _ _
  | exitShort =>
    simp only
    rw [sweep_consistency]
    exact sweep_consistency _ _ _

lemma foldl_stepBar_consistency (cfg : RiskConfig) (rule : ℕ → Signal)
    (l : List (ℕ × PriceBar)) (acc : Ledger) :
    ((l.foldl (fun led ib => stepBar cfg rule ib.1 ib.2 led) acc).balance
      - pnlSum (l.foldl (fun led ib => stepBar cfg rule ib.1 ib.2 led) acc).trades)
      = acc.balance - pnlSum acc.trades := by
  induction l generalizing acc with
  | nil => rfl
  | cons ib l ih =>
    rw [List.foldl_cons, ih, stepBar_consistency]

/-- Claim C1: for every accepted run of the Backtest Simulator, the final
balance equals the initial balance plus the sum of the realized P&L of all
ClosedTrade entries in the ledger. -/
theorem ledger_consistency (cfg : RiskConfig) (rule : ℕ → Signal) (bars : List PriceBar)
    (led : Ledger) (h : runBacktest cfg rule bars = Except.ok led) :
    led.balance = cfg.initialBalance + pnlSum led.trades := by
  by_cases hval : validConfig cfg = true
  · rw [runBacktest, if_pos hval] at h
    have hinit : (initLedger cfg).balance - pnlSum (initLedger cfg).trades = cfg.initialBalance := by
      simp [initLedger, pnlSum]
    cases hlast : bars.getLast? with
    | none =>
      rw [hlast, Except.ok.injEq] at h
      subst h
      have h2 := foldl_stepBar_consistency cfg rule bars.enum (initLedger cfg)
      rw [hinit] at h2
      simp only [afterAllBars]
      linarith
    | some lastBar =>
      rw [hlast, Except.ok.injEq] at h
      subst h
      have h1 := sweep_consistency (fun _ => some (lastBar.close, ExitReason.endOfData))
        lastBar.time (List.foldl (fun led ib => stepBar cfg rule ib.1 ib.2 led) (initLedger cfg) bars.enum)
      have h2 := foldl_stepBar_consistency cfg rule bars.enum (initLedger cfg)
      rw [hinit] at h2
      rw [h2] at h1
      simp only [afterAllBars]
      linarith
  · rw [runBacktest, if_neg hval] at h
    exact absurd h (by simp)

/-- Witness for C1 on a concrete one-bar run with no signals. -/
theorem ledger_consistency_witness :
    (initLedger demoCfg).balance = demoCfg.initialBalance + pnlSum (initLedger demoCfg).trades :=
  ledger_consistency demoCfg demoRule [demoBar] (initLedger demoCfg) rfl

lemma foldl_sweepStep_reasons (er : Position → Option (ℚ × ExitReason)) (t : ℕ)
    (her : ∀ p px r, er p = some (px, r) → r ≠ ExitReason.endOfData)
    (ps : List Position) (acc : Ledger)
    (hacc : ∀ ct ∈ acc.trades, ct.reason ≠ ExitReason.endOfData) :
    ∀ ct ∈ (ps.foldl (sweepStep er t) acc).trades, ct.reason ≠ ExitReason.endOfData := by
  induction ps generalizing acc with
  | nil => exact hacc
  | cons p ps ih =>
    rw [List.foldl_cons]
    apply ih
    cases hp : er p with
    | none => simpa [sweepStep, hp] using hacc
    | some pr =>
      simp only [sweepStep, hp]
      intro ct hct
      rw [List.mem_append] at hct
      cases hct with
      | inl hmem => exact hacc ct hmem
      | inr hmem =>
        rw [List.mem_singleton] at hmem
        subst hmem
        exact her p pr.1 pr.2 (by rw [hp])

lemma sweep_reasons (er : Position → Option (ℚ × ExitReason)) (t : ℕ) (led : Ledger)
    (her : ∀ p px r, er p = some (px, r) → r ≠ ExitReason.endOfData)
    (hled : ∀ ct ∈ led.trades, ct.reason ≠ ExitReason.endOfData) :
    ∀ ct ∈ (sweep er t led).trades, ct.reason ≠ ExitReason.endOfData :=
  foldl_sweepStep_reasons er t her led.openPositions { led with openPositions := [] } hled

lemma triggeredExit_reasons (bar : PriceBar) :
    ∀ (p : Position) (px : ℚ) (r : ExitReason),
      triggeredExit p bar = some (px, r) → r ≠ ExitReason.endOfData := by
  intro p px r h
  rw [triggeredExit] at h
  split at h
  · rw [Option.some.injEq, Prod.mk.injEq] at h
    rw [← h.2]
    simp
  · split at h
    · rw [Option.some.injEq, Prod.mk.injEq] at h
      rw [← h.2]
      simp
    · exact absurd h (by simp)

lemma stepBar_reasons (cfg : RiskConfig) (rule : ℕ → Signal) (i : ℕ) (bar : PriceBar)
    (led : Ledger) (hled : ∀ ct ∈ led.trades, ct.reason ≠ ExitReason.endOfData) :
    ∀ ct ∈ (stepBar cfg rule i bar led).trades, ct.reason ≠ ExitReason.endOfData := by
  rw [stepBar]
  have h1 := sweep_reasons (fun p => triggeredExit p bar) bar.time led
    (triggeredExit_reasons bar) hled
  cases rule i with
  | none => exact h1
  | enterLong =>
    simp only
    split
    · simpa using h1
    · exact h1
  | enterShort =>
    simp only
    split
    · simpa using h1
    · exact h1
  | exitLong =>
    apply sweep_reasons _ _ _ _ h1
    intro p px r h
    split at h
    · rw [Option.some.injEq, Prod.mk.injEq] at h
      rw [← h.2]
      simp
    · exact absurd h (by simp)
  | exitShort =>
    apply sweep_reasons _ _ _ _ h1
    intro p px r h
    split at h
    · rw [Option.some.injEq, Prod.mk.injEq] at h
      rw [← h.2]
      simp
    · exact absurd h (by simp)

lemma afterAllBars_reasons (cfg : RiskConfig) (rule : ℕ → Signal) (bars : List PriceBar) :
    ∀ ct ∈ (afterAllBars cfg rule bars).trades, ct.reason ≠ ExitReason.endOfData := by
  rw [afterAllBars]
  have main : ∀ (l : List (ℕ × PriceBar)) (acc : Ledger),
      (∀ ct ∈ acc.trades, ct.reason ≠ ExitReason.endOfData) →
      ∀ ct ∈ (l.foldl (fun led ib => stepBar cfg rule ib.1 ib.2 led) acc).trades,
        ct.reason ≠ ExitReason.endOfData := by
    intro l
    induction l with
    | nil => intro acc hacc; exact hacc
    | cons ib l ih =>
      intro acc hacc
      rw [List.foldl_cons]
      exact ih _ (stepBar_reasons cfg rule ib.1 ib.2 acc hacc)
  exact main bars.enum (initLedger cfg) (by simp [initLedger])

lemma foldl_sweepStep_const (px : ℚ) (r : ExitReason) (t : ℕ)
    (ps : List Position) (acc : Ledger) :
    (ps.foldl (sweepStep (fun _ => some (px, r)) t) acc).trades
      = acc.trades ++ ps.map (fun p => closePosition p px t r) ∧
    (ps.foldl (sweepStep (fun _ => some (px, r)) t) acc).openPositions = acc.openPositions := by
  induction ps generalizing acc with
  | nil => simp
  | cons p ps ih =>
    rw [List.foldl_cons]
    simp only [sweepStep]
    rw [(ih _).1, (ih _).2]
    simp

/-- Counterexample for C2 as stated: on a two-bar run where the position
opened at bar 0 is stopped out during the final bar, one position was still
open entering the last bar, yet the ledger contains zero EndOfData trades
(the stop-loss close on the final bar pre-empts the end-of-data close). -/
theorem end_of_data_entering_cex :
    (runBacktest demoCfg ruleEnter0 [demoBar, cexBar1]).map endOfDataCount = Except.ok 0 ∧
    openEnteringLast demoCfg ruleEnter0 [demoBar, cexBar1] = 1 ∧
    (runBacktest demoCfg ruleEnter0 [demoBar, cexBar1]).map endOfDataCount
      ≠ Except.ok (openEnteringLast demoCfg ruleEnter0 [demoBar, cexBar1]) := by
  have h1 : (runBacktest demoCfg ruleEnter0 [demoBar, cexBar1]).map endOfDataCount
      = Except.ok 0 := by
    have hval : validConfig demoCfg = true := by decide
    rw [runBacktest, if_pos hval]
    simp only [afterAllBars, List.enum, List.enumFrom, List.foldl_cons, List.foldl_nil]
    norm_num [stepBar, sweep, sweepStep, triggeredExit, slHit, tpHit, ruleEnter0, demoCfg,
      initLedger, Except.map, endOfDataCount, closePosition, positionPnl, openPosition,
      demoBar, cexBar1]
    decide
  have h2 : openEnteringLast demoCfg ruleEnter0 [demoBar, cexBar1] = 1 := by rfl
  refine ⟨h1, h2, ?_⟩
  rw [h1, h2]
  simp

/-- Claim C2 as amended: after the final bar, no position remains open, and
the ledger's EndOfData trades are exactly one for each position still open
after the final bar's trigger and signal processing (not merely entering the
last bar), each closed at the final bar's close price. -/
theorem end_of_data_amended (cfg : RiskConfig) (rule : ℕ → Signal) (bars : List PriceBar)
    (led : Ledger) (lastBar : PriceBar)
    (h : runBacktest cfg rule bars = Except.ok led) (hl : bars.getLast? = some lastBar) :
    led.openPositions = [] ∧
    led.trades.filter (fun t => decide (t.reason = ExitReason.endOfData))
      = (afterAllBars cfg rule bars).openPositions.map
          (fun p => closePosition p lastBar.close lastBar.time ExitReason.endOfData) := by
  by_cases hval : validConfig cfg = true
  · rw [runBacktest, if_pos hval, hl, Except.ok.injEq] at h
    subst h
    have hconst := foldl_sweepStep_const lastBar.close ExitReason.endOfData lastBar.time
      (afterAllBars cfg rule bars).openPositions
      { afterAllBars cfg rule bars with openPositions := [] }
    constructor
    · rw [sweep, hconst.2]
    · rw [sweep, hconst.1]
      simp only [List.filter_append]
      have hleft : (afterAllBars cfg rule bars).trades.filter
          (fun t => decide (t.reason = ExitReason.endOfData)) = [] := by
        rw [List.filter_eq_nil_iff]
        intro ct hct
        simpa using afterAllBars_reasons cfg rule bars ct hct
      have hright : ((afterAllBars cfg rule bars).openPositions.map
            (fun p => closePosition p lastBar.close lastBar.time ExitReason.endOfData)).filter
            (fun t => decide (t.reason = ExitReason.endOfData))
          = (afterAllBars cfg rule bars).openPositions.map
            (fun p => closePosition p lastBar.close lastBar.time ExitReason.endOfData) := by
        rw [List.filter_eq_self]
        intro ct hct
        rw [List.mem_map] at hct
        obtain ⟨p, hp, rfl⟩ := hct
        simp [closePosition]
      rw [hleft, hright]
      rfl
  · rw [runBacktest, if_neg hval] at h
    exact absurd h (by simp)

/-- Witness for the amended C2 on a concrete one-bar run with no signals. -/
theorem end_of_data_amended_witness :
    (initLedger demoCfg).openPositions = [] ∧
    (initLedger demoCfg).trades.filter (fun t => decide (t.reason = ExitReason.endOfData))
      = (afterAllBars demoCfg demoRule [demoBar]).openPositions.map
          (fun p => closePosition p demoBar.close demoBar.time ExitReason.endOfData) :=
  end_of_data_amended demoCfg demoRule [demoBar] (initLedger demoCfg) demoBar rfl rfl

/-- Claim C3: the metrics calculator reports profit factor as an explicit
`none` when there are no losing trades, and win rate `0` on an empty ledger —
never a division error. -/
theorem metrics_division_safe (ts : List ClosedTrade) :
    ((∀ t ∈ ts, 0 ≤ t.pnl) → profitFactor ts = none) ∧
    (ts = [] → winRate ts = 0) := by
  constructor
  · intro h
    have hfil : ts.filter (fun t => decide (t.pnl < 0)) = [] := by
      rw [List.filter_eq_nil_iff]
      intro t ht
      simp only [decide_eq_true_eq, not_lt]
      exact h t ht
    have hl : grossLoss ts = 0 := by
      rw [grossLoss, hfil]
      simp
    rw [profitFactor, if_pos hl]
  · intro h
    subst h
    rfl

/-- Witness for C3: one winning trade gives profit factor `none`, and the
empty ledger gives win rate 0. -/
theorem metrics_division_safe_witness :
    profitFactor [demoTrade] = none ∧ winRate [] = 0 :=
  ⟨(metrics_division_safe [demoTrade]).1 (by decide), (metrics_division_safe []).2 rfl⟩

/-- Claim C5: when both the stop-loss and the take-profit of a position fall
within a bar's range, the trigger is the stop-loss at the stop-loss price;
every triggered close carries the triggered price (not the bar close) as exit
price. -/
theorem same_bar_tie_break (p : Position) (bar : PriceBar) (led : Ledger) :
    (slHit p bar = true → tpHit p bar = true →
      triggeredExit p bar = some (p.stopLoss, ExitReason.stopLoss)) ∧
    (∀ px r, triggeredExit p bar = some (px, r) →
      (r = ExitReason.stopLoss → px = p.stopLoss) ∧
      (r = ExitReason.takeProfit → px = p.takeProfit) ∧
      (closePosition p px bar.time r).exitPrice = px) ∧
    (slHit p bar = true →
      (sweep (fun q => triggeredExit q bar) bar.time { led with openPositions := [p] }).trades
        = led.trades ++ [closePosition p p.stopLoss bar.time ExitReason.stopLoss]) := by
  refine ⟨fun hsl _ => by rw [triggeredExit, if_pos hsl], fun px r h => ?_, fun hsl => ?_⟩
  · rw [triggeredExit] at h
    split at h
    · rw [Option.some.injEq, Prod.mk.injEq] at h
      obtain ⟨h1, h2⟩ := h
      subst h1
      subst h2
      exact ⟨fun _ => rfl, fun hc => absurd hc (by simp), rfl⟩
    · split at h
      · rw [Option.some.injEq, Prod.mk.injEq] at h
        obtain ⟨h1, h2⟩ := h
        subst h1
        subst h2
        exact ⟨fun hc => absurd hc (by simp), fun _ => rfl, rfl⟩
      · exact absurd h (by simp)
  · rw [sweep]
    simp only [List.foldl_cons, List.foldl_nil, sweepStep, triggeredExit, if_pos hsl]

/-- Witness for C5: a bar reaching both sides of `demoPos` closes it at the
stop-loss price with reason StopLoss. -/
theorem same_bar_tie_break_witness :
    triggeredExit demoPos demoTieBar = some (demoPos.stopLoss, ExitReason.stopLoss) ∧
    (sweep (fun q => triggeredExit q demoTieBar) demoTieBar.time
        { demoLed with openPositions := [demoPos] }).trades
      = demoLed.trades ++ [closePosition demoPos demoPos.stopLoss demoTieBar.time ExitReason.stopLoss] :=
  ⟨(same_bar_tie_break demoPos demoTieBar demoLed).1 (by decide) (by decide),
   (same_bar_tie_break demoPos demoTieBar demoLed).2.2 (by decide)⟩

/-- Claim C6: a position opened with risk fraction `r` and stop distance `d`
that is closed by a stop-loss hit realizes a loss of exactly `r ×` the
balance at entry, for every value of the leverage multiplier. -/
theorem risk_exact_sizing (cfg : RiskConfig) (lev : ℚ) (dir : Direction) (bar : PriceBar)
    (B : ℚ) (hd : 0 < cfg.stopLossDistance) :
    (closePosition (openPosition { cfg with leverage := lev } dir bar B)
        (openPosition { cfg with leverage := lev } dir bar B).stopLoss
        bar.time ExitReason.stopLoss).pnl
      = -(cfg.riskPerTrade * B) := by
  have hne : cfg.stopLossDistance ≠ 0 := ne_of_gt hd
  cases dir with
  | long =>
    simp only [closePosition, openPosition, positionPnl]
    field_simp
  | short =>
    simp only [closePosition, openPosition, positionPnl]
    field_simp

/-- Witness for C6 at a concrete configuration and balance. -/
theorem risk_exact_sizing_witness :
    (closePosition (openPosition { demoCfg with leverage := 7 } Direction.long demoBar 1000)
        (openPosition { demoCfg with leverage := 7 } Direction.long demoBar 1000).stopLoss
        demoBar.time ExitReason.stopLoss).pnl
      = -(demoCfg.riskPerTrade * 1000) :=
  risk_exact_sizing demoCfg 7 Direction.long demoBar 1000 (by decide)

/-- Claim C7: an empty bar sequence yields a successful run with zero trades
and an unchanged balance, while a risk configuration with a non-positive
stop-loss distance or a risk fraction outside (0,1] yields ConfigurationError
for every input, i.e. before any bar is processed. -/
theorem run_start_conditions (cfg : RiskConfig) (rule : ℕ → Signal) (bars : List PriceBar) :
    (validConfig cfg = true →
      runBacktest cfg rule [] = Except.ok (initLedger cfg) ∧
      (initLedger cfg).trades = [] ∧ (initLedger cfg).balance = cfg.initialBalance) ∧
    ((¬ 0 < cfg.stopLossDistance ∨ ¬ (0 < cfg.riskPerTrade ∧ cfg.riskPerTrade ≤ 1)) →
      runBacktest cfg rule bars = Except.error BacktestError.configurationError) := by
  constructor
  · intro hval
    refine ⟨?_, rfl, rfl⟩
    rw [runBacktest, if_pos hval]
    rfl
  · intro hbad
    have hval : ¬ validConfig cfg = true := by
      intro hv
      simp only [validConfig, Bool.and_eq_true, decide_eq_true_eq] at hv
      rcases hbad with h | h
      · exact h hv.1.1.2
      · exact h ⟨hv.1.1.1.1.2, hv.1.1.1.2⟩
    rw [runBacktest, if_neg hval]

/-- Witness for C7: a valid demo configuration runs the empty series to a
zero-trade unchanged-balance ledger; the zero-stop-distance configuration is
rejected with ConfigurationError. -/
theorem run_start_conditions_witness :
    (runBacktest demoCfg demoRule [] = Except.ok (initLedger demoCfg) ∧
      (initLedger demoCfg).trades = [] ∧ (initLedger demoCfg).balance = demoCfg.initialBalance) ∧
    runBacktest badCfg demoRule [demoBar] = Except.error BacktestError.configurationError :=
  ⟨(run_start_conditions demoCfg demoRule []).1 (by decide),
   (run_start_conditions badCfg demoRule [demoBar]).2 (Or.inl (by decide))⟩
